import Mathlib

/-!
Verification of the GrowthBook assignment/evaluation engine (packages/sdk-js).

The sdk-js implementation file itself is not present in this snapshot; only its
test suite (packages/sdk-js/test/experiments.test.ts) and documentation are.
The definitions below are therefore modelled from the specification's component
design (spec sections 4.1-4.5) and calibrated against the conformance vectors in
the test suite, which the model reproduces exactly (default weights, uneven
weights, coverage, three-way split, namespace checks, forced variations,
tracking dedup).  Floats are idealised as rationals; machine 32-bit overflow in
the FNV-1a hash is explicit via `% 2^32`.
-/

unseal Rat.add Rat.mul Rat.inv Rat.sub

namespace GrowthBook

/-- Modelled from the spec: UTF-8 encoding of a single character, used because
the Bucketing Hash is computed over the UTF-8 bytes of the seed string. -/
def utf8Encode (c : Char) : List Nat :=
  let n := c.toNat
  if n < 128 then [n]
  else if n < 2048 then [192 ||| (n >>> 6), 128 ||| (n &&& 63)]
  else if n < 65536 then
    [224 ||| (n >>> 12), 128 ||| ((n >>> 6) &&& 63), 128 ||| (n &&& 63)]
  else
    [240 ||| (n >>> 18), 128 ||| ((n >>> 12) &&& 63),
     128 ||| ((n >>> 6) &&& 63), 128 ||| (n &&& 63)]

/-- Modelled from the spec: the UTF-8 bytes of a string. -/
def stringBytes (s : String) : List Nat :=
  (s.data.map utf8Encode).flatten

/-- Modelled from the spec: one step of the 32-bit FNV-1a hash: xor the byte in,
then multiply by the FNV prime 16777619, truncated to 32 bits. -/
def fnv1a32Step (h b : Nat) : Nat :=
  ((h ^^^ b) * 16777619) % 4294967296

/-- Modelled from the spec: 32-bit FNV-1a hash over the UTF-8 bytes of a
string, starting from the offset basis 2166136261. -/
def hashFnv32a (s : String) : Nat :=
  (stringBytes s).foldl fnv1a32Step 2166136261

/-- Modelled from the spec: the Bucketing Hash float, `(hash mod 1000) / 1000`,
a rational in `[0, 1)`. -/
def hashFloat (s : String) : ℚ :=
  ((hashFnv32a s % 1000 : Nat) : ℚ) / 1000

/-- Modelled from the spec: experiment status enum. -/
inductive ExpStatus where
  | running
  | draft
  | stopped
deriving DecidableEq, Repr

/-- Modelled from the spec: an experiment definition.  `includeCb` stands for
the user-supplied `include` callback, abstracted to the outcome of calling it
(`Except.error` represents a thrown exception); `condition` is abstracted to
the boolean outcome of the Condition Evaluator on the context's attributes;
`url` is the targeting pattern abstracted to a predicate on the current URL;
`nspace` is the `namespace` triple (namespace id, range start, range end). -/
structure Experiment (V : Type) where
  key : String
  variations : List V
  weights : Option (List ℚ) := none
  coverage : Option ℚ := none
  status : ExpStatus := ExpStatus.running
  active : Bool := true
  force : Option Int := none
  includeCb : Option (Except String Bool) := none
  condition : Option Bool := none
  groups : Option (List String) := none
  nspace : Option (String × ℚ × ℚ) := none
  hashAttribute : Option String := none
  url : Option (String → Bool) := none

/-- Modelled from the spec: an override is a partial experiment definition;
fields present replace the corresponding base fields.  Overridable fields are
status, force, weights, coverage, groups and url. -/
structure Override where
  weights : Option (List ℚ) := none
  coverage : Option ℚ := none
  status : Option ExpStatus := none
  force : Option Int := none
  groups : Option (List String) := none
  url : Option (String → Bool) := none

/-- Modelled from the spec: the process-wide Context.  `trackingThrows` and
`subscriberThrows` abstract whether the user-supplied tracking callback or a
subscriber callback throws when invoked. -/
structure Context where
  enabled : Bool := true
  user : List (String × String) := []
  groups : List (String × Bool) := []
  url : Option String := none
  overrides : List (String × Override) := []
  forcedVariations : List (String × Int) := []
  qaMode : Bool := false
  trackingThrows : Bool := false
  subscriberThrows : Bool := false

/-- Modelled from the spec: the Experiment Result of one evaluation. -/
structure ExperimentResult (V : Type) where
  inExperiment : Bool
  variationId : Nat
  value : Option V
  hashAttribute : String
  hashValue : String
deriving DecidableEq, Repr

/-- Modelled from the spec: split a character list on a separator character. -/
def splitOnChar (sep : Char) : List Char → List (List Char)
  | [] => [[]]
  | c :: cs =>
    if c = sep then [] :: splitOnChar sep cs
    else
      match splitOnChar sep cs with
      | [] => [[c]]
      | g :: gs => (c :: g) :: gs

/-- Modelled from the spec: split a string on a separator character. -/
def splitStr (sep : Char) (s : String) : List String :=
  (splitOnChar sep s.data).map (fun cs => String.mk cs)

/-- Modelled from the spec: parse a decimal digit. -/
def charDigit (c : Char) : Option Nat :=
  if 48 ≤ c.toNat ∧ c.toNat ≤ 57 then some (c.toNat - 48) else none

/-- Modelled from the spec: accumulate decimal digits into a natural number. -/
def parseNatAux : List Char → Nat → Option Nat
  | [], acc => some acc
  | c :: cs, acc =>
    match charDigit c with
    | some d => parseNatAux cs (acc * 10 + d)
    | none => none

/-- Modelled from the spec: parse a string of decimal digits. -/
def parseNat (s : String) : Option Nat :=
  match s.data with
  | [] => none
  | cs => parseNatAux cs 0

/-- Modelled from the spec: the query-string protocol.  A URL parameter named
exactly as the experiment key, containing an integer variation index, forces
that experiment: take the part after the first question mark, strip any
fragment, split on ampersands into key=value pairs, and parse the value of the
first pair whose key equals the experiment key. -/
def getQueryStringOverride (id : String) (url : String) : Option Nat :=
  match (splitStr '?' url)[1]? with
  | none => none
  | some search =>
    let search := (splitStr '#' search).headD ""
    let pairs := (splitStr '&' search).map (fun kv => splitStr '=' kv)
    match pairs.find? (fun kv => kv.headD "" = id) with
    | none => none
    | some kv => kv[1]?.bind parseNat

/-- Modelled from the spec: equal weights, an even split over n variations. -/
def getEqualWeights (n : Nat) : List ℚ :=
  List.replicate n (1 / (n : ℚ))

/-- Modelled from the spec, calibrated by the coverage conformance vectors:
bucket ranges for the allocation partitioner.  Variation i keeps the first
`coverage` fraction of its own weight slice: its range is
`[cum_i, cum_i + coverage * w_i)` where `cum_i` is the sum of the weights
before it. -/
def bucketRanges (coverage : ℚ) (cum : ℚ) : List ℚ → List (ℚ × ℚ)
  | [] => []
  | w :: ws => (cum, cum + coverage * w) :: bucketRanges coverage (cum + w) ws

/-- Modelled from the spec: locate the half-open range containing the hash
float; `none` is NOT_INCLUDED. -/
def chooseVariation (n : ℚ) : List (ℚ × ℚ) → Option Nat
  | [] => none
  | (lo, hi) :: rs =>
    if lo ≤ n ∧ n < hi then some 0
    else (chooseVariation n rs).map Nat.succ

/-- Modelled from the spec: the namespace check hashes a separate seed,
identifier then two underscores then the namespace id, and requires the result
to fall in `[start, end)`; calibrated by the namespace conformance vectors. -/
def inNamespace (hashValue : String) (ns : String × ℚ × ℚ) : Bool :=
  let n := hashFloat (hashValue ++ "__" ++ ns.1)
  decide (ns.2.1 ≤ n ∧ n < ns.2.2)

/-- Modelled from the spec: patch the base definition with the fields present
on an override. -/
def applyOverride {V : Type} (e : Experiment V) (o : Override) : Experiment V :=
  { e with
    weights := o.weights <|> e.weights
    coverage := o.coverage <|> e.coverage
    status := o.status.getD e.status
    force := o.force <|> e.force
    groups := o.groups <|> e.groups
    url := o.url <|> e.url }

/-- Modelled from the spec: resolve the context override for this experiment
key, if any. -/
def mergedExp {V : Type} (ctx : Context) (e : Experiment V) : Experiment V :=
  match ctx.overrides.lookup e.key with
  | some o => applyOverride e o
  | none => e

/-- Modelled from the spec: the hash attribute value for this evaluation, the
context attribute named by `hashAttribute` (default "id"), or "" if absent. -/
def hashValueOf {V : Type} (ctx : Context) (e : Experiment V) : String :=
  (ctx.user.lookup (e.hashAttribute.getD "id")).getD ""

/-- Modelled from the spec: clamp a variation index into `[0, len)`, falling
back to 0 when out of range. -/
def clampIndex (len : Nat) (i : Int) : Nat :=
  if 0 ≤ i ∧ i < (len : Int) then i.toNat else 0

/-- Modelled from the spec: build the Experiment Result for a terminal state:
the (clamped) variation index, the payload at that index, and the hash
attribute and value used. -/
def getExperimentResult {V : Type} (ctx : Context) (e : Experiment V)
    (variationIndex : Int) (inExperiment : Bool) : ExperimentResult V :=
  { inExperiment := inExperiment
    variationId := clampIndex e.variations.length variationIndex
    value := e.variations[clampIndex e.variations.length variationIndex]?
    hashAttribute := e.hashAttribute.getD "id"
    hashValue := hashValueOf ctx e }

/-- Modelled from the spec: the effective weight vector, defaulting to an even
split. -/
def expWeights {V : Type} (e : Experiment V) : List ℚ :=
  e.weights.getD (getEqualWeights e.variations.length)

/-- Modelled from the spec: a weight vector not matching the variation count is
malformed and degrades to exclusion. -/
def weightsMismatch {V : Type} (e : Experiment V) : Bool :=
  (expWeights e).length != e.variations.length

/-- Modelled from the spec: the bucket ranges of an experiment, scaling by its
coverage (default 1). -/
def expRanges {V : Type} (e : Experiment V) : List (ℚ × ℚ) :=
  bucketRanges (e.coverage.getD 1) 0 (expWeights e)

/-- Modelled from the spec: namespace gate (vacuous when unset). -/
def nsPass (hv : String) : Option (String × ℚ × ℚ) → Bool
  | none => true
  | some ns => inNamespace hv ns

/-- Modelled from the spec: the include-callback gate; a thrown exception is
caught and treated as exclusion. -/
def includePass : Option (Except String Bool) → Bool
  | none => true
  | some (Except.ok b) => b
  | some (Except.error _) => false

/-- Modelled from the spec: the targeting-condition gate (abstracted to the
evaluator's boolean outcome, vacuous when unset). -/
def condPass : Option Bool → Bool
  | none => true
  | some b => b

/-- Modelled from the spec: the groups gate, requiring at least one listed
group to be true for the user. -/
def groupsPass (ctx : Context) : Option (List String) → Bool
  | none => true
  | some gs => gs.any (fun g => (ctx.groups.lookup g).getD false)

/-- Modelled from the spec: the URL-targeting gate; with no current URL a
pattern never matches. -/
def urlPass (ctx : Context) : Option (String → Bool) → Bool
  | none => true
  | some p =>
    match ctx.url with
    | none => false
    | some u => p u

/-- Modelled from the spec: the assignment pipeline after override resolution,
in the exact short-circuit order fixed by the conformance tests: context
disabled; too few variations; query-string force; context forced variation;
draft status; inactive; missing hash value; namespace; include callback;
condition; groups; URL targeting; malformed weights; bucket allocation (which
applies before an experiment-authored force is honored); experiment force; QA
mode; stopped status; and finally random inclusion. -/
def evalMerged {V : Type} (ctx : Context) (e : Experiment V) : ExperimentResult V :=
  if ctx.enabled = false then getExperimentResult ctx e 0 false
  else if e.variations.length < 2 then getExperimentResult ctx e 0 false
  else
    match getQueryStringOverride e.key (ctx.url.getD "") with
    | some v => getExperimentResult ctx e (Int.ofNat v) false
    | none =>
      match ctx.forcedVariations.lookup e.key with
      | some v => getExperimentResult ctx e v false
      | none =>
        if e.status = ExpStatus.draft then getExperimentResult ctx e 0 false
        else if e.active = false then getExperimentResult ctx e 0 false
        else if hashValueOf ctx e = "" then getExperimentResult ctx e 0 false
        else if nsPass (hashValueOf ctx e) e.nspace = false then
          getExperimentResult ctx e 0 false
        else if includePass e.includeCb = false then getExperimentResult ctx e 0 false
        else if condPass e.condition = false then getExperimentResult ctx e 0 false
        else if groupsPass ctx e.groups = false then getExperimentResult ctx e 0 false
        else if urlPass ctx e.url = false then getExperimentResult ctx e 0 false
        else if weightsMismatch e = true then getExperimentResult ctx e 0 false
        else
          match chooseVariation (hashFloat (hashValueOf ctx e ++ e.key)) (expRanges e) with
          | none => getExperimentResult ctx e 0 false
          | some v =>
            match e.force with
            | some f => getExperimentResult ctx e f false
            | none =>
              if ctx.qaMode = true then getExperimentResult ctx e 0 false
              else if e.status = ExpStatus.stopped then getExperimentResult ctx e 0 false
              else getExperimentResult ctx e (Int.ofNat v) true

/-- Modelled from the spec: the result of one evaluation, a pure function of
the Context and the experiment definition. -/
def evalResult {V : Type} (ctx : Context) (e : Experiment V) : ExperimentResult V :=
  evalMerged ctx (mergedExp ctx e)

/-- Modelled from the spec: the engine instance's mutable state: the
tracking-deduplication set, the ordered log of tracking-callback invocations,
the assignment table, the count of subscriber notifications, and the count of
caught callback exceptions. -/
structure EngineState where
  tracked : List (String × Nat × String) := []
  trackLog : List (String × Nat × String) := []
  assigned : List (String × (Bool × Nat)) := []
  notifications : Nat := 0
  errors : Nat := 0
deriving DecidableEq, Repr

/-- Modelled from the spec: the fresh engine state at instance creation. -/
def initState : EngineState := {}

/-- Modelled from the spec: insert or replace a key's entry, keeping insertion
order. -/
def setAssoc {α : Type} (k : String) (v : α) : List (String × α) → List (String × α)
  | [] => [(k, v)]
  | p :: rest => if p.1 = k then (k, v) :: rest else p :: setAssoc k v rest

/-- Modelled from the spec: one call to `run`.  The result is computed purely;
then the assignment table is updated (notifying subscribers when the stored
assignment changed), and, only on the randomly-included path
(`inExperiment = true`), the tracking callback fires unless the
(key, variation id, hash value) combination was already tracked; callback
exceptions are caught and only counted. -/
def run {V : Type} (ctx : Context) (s : EngineState) (e : Experiment V) :
    ExperimentResult V × EngineState :=
  let r := evalResult ctx e
  let changed := s.assigned.lookup e.key ≠ some (r.inExperiment, r.variationId)
  let s1 : EngineState :=
    { s with
      assigned := setAssoc e.key (r.inExperiment, r.variationId) s.assigned
      notifications := if changed then s.notifications + 1 else s.notifications
      errors := if changed ∧ ctx.subscriberThrows = true then s.errors + 1 else s.errors }
  let s2 : EngineState :=
    if r.inExperiment then
      if (e.key, r.variationId, r.hashValue) ∈ s1.tracked then s1
      else
        { s1 with
          tracked := (e.key, r.variationId, r.hashValue) :: s1.tracked
          trackLog := s1.trackLog ++ [(e.key, r.variationId, r.hashValue)]
          errors := if ctx.trackingThrows then s1.errors + 1 else s1.errors }
    else s1
  (r, s2)

/-- Modelled from the spec: a sequence of evaluations over the lifetime of one
engine instance. -/
def runMany {V : Type} (evals : List (Context × Experiment V)) (s : EngineState) :
    EngineState :=
  evals.foldl (fun st ce => (run ce.1 st ce.2).2) s

/-! Basic lemmas about the building blocks. -/

@[simp]
lemma getExperimentResult_inExperiment {V : Type} (ctx : Context) (e : Experiment V)
    (i : Int) (b : Bool) : (getExperimentResult ctx e i b).inExperiment = b := rfl

@[simp]
lemma getExperimentResult_variationId {V : Type} (ctx : Context) (e : Experiment V)
    (i : Int) (b : Bool) :
    (getExperimentResult ctx e i b).variationId = clampIndex e.variations.length i := rfl

@[simp]
lemma getExperimentResult_value {V : Type} (ctx : Context) (e : Experiment V)
    (i : Int) (b : Bool) :
    (getExperimentResult ctx e i b).value =
      e.variations[clampIndex e.variations.length i]? := rfl

@[simp]
lemma getExperimentResult_hashValue {V : Type} (ctx : Context) (e : Experiment V)
    (i : Int) (b : Bool) : (getExperimentResult ctx e i b).hashValue = hashValueOf ctx e := rfl

lemma clampIndex_lt {len : Nat} (i : Int) (h : 0 < len) : clampIndex len i < len := by
  unfold clampIndex
  split
  · next hc => omega
  · exact h

lemma clampIndex_ofNat {len i : Nat} (h : i < len) :
    clampIndex len (Int.ofNat i) = i := by
  unfold clampIndex
  rw [if_pos]
  · rfl
  · exact ⟨Int.ofNat_nonneg i, Int.ofNat_lt.mpr h⟩

@[simp]
lemma mergedExp_key {V : Type} (ctx : Context) (e : Experiment V) :
    (mergedExp ctx e).key = e.key := by
  unfold mergedExp
  cases ctx.overrides.lookup e.key <;> rfl

@[simp]
lemma mergedExp_variations {V : Type} (ctx : Context) (e : Experiment V) :
    (mergedExp ctx e).variations = e.variations := by
  unfold mergedExp
  cases ctx.overrides.lookup e.key <;> rfl

@[simp]
lemma mergedExp_hashAttribute {V : Type} (ctx : Context) (e : Experiment V) :
    (mergedExp ctx e).hashAttribute = e.hashAttribute := by
  unfold mergedExp
  cases ctx.overrides.lookup e.key <;> rfl

@[simp]
lemma mergedExp_includeCb {V : Type} (ctx : Context) (e : Experiment V) :
    (mergedExp ctx e).includeCb = e.includeCb := by
  unfold mergedExp
  cases ctx.overrides.lookup e.key <;> rfl

lemma mergedExp_of_lookup_none {V : Type} (ctx : Context) (e : Experiment V)
    (h : ctx.overrides.lookup e.key = none) : mergedExp ctx e = e := by
  unfold mergedExp
  rw [h]

lemma run_fst {V : Type} (ctx : Context) (s : EngineState) (e : Experiment V) :
    (run ctx s e).1 = evalResult ctx e := rfl

/-! Allocation partitioner lemmas. -/

lemma bucketRanges_length (c cum : ℚ) (ws : List ℚ) :
    (bucketRanges c cum ws).length = ws.length := by
  induction ws generalizing cum with
  | nil => rfl
  | cons w ws ih => simp [bucketRanges, ih]

lemma chooseVariation_lt_length (n : ℚ) (rs : List (ℚ × ℚ)) (i : Nat)
    (h : chooseVariation n rs = some i) : i < rs.length := by
  induction rs generalizing i with
  | nil => simp [chooseVariation] at h
  | cons r rs ih =>
    obtain ⟨lo, hi⟩ := r
    simp only [chooseVariation] at h
    split at h
    · simp only [Option.some.injEq] at h
      simp only [List.length_cons]
      omega
    · rw [Option.map_eq_some'] at h
      obtain ⟨j, hc, rfl⟩ := h
      have := ih j hc
      simp only [List.length_cons]
      omega

lemma chooseVariation_start_le (n c cum : ℚ) (ws : List ℚ) (i : Nat)
    (hw : ∀ w ∈ ws, 0 ≤ w)
    (h : chooseVariation n (bucketRanges c cum ws) = some i) : cum ≤ n := by
  induction ws generalizing cum i with
  | nil => simp [bucketRanges, chooseVariation] at h
  | cons w ws ih =>
    simp only [bucketRanges, chooseVariation] at h
    split at h
    · next hc => exact hc.1
    · rw [Option.map_eq_some'] at h
      obtain ⟨j, hc, rfl⟩ := h
      have hcum : cum + w ≤ n :=
        ih (cum + w) j (fun x hx => hw x (List.mem_cons_of_mem w hx)) hc
      have hw0 : 0 ≤ w := hw w (List.mem_cons_self w ws)
      linarith

lemma chooseVariation_mono (n c1 c2 cum : ℚ) (ws : List ℚ) (i : Nat)
    (hw : ∀ w ∈ ws, 0 ≤ w) (h12 : c1 ≤ c2) (hc2 : c2 ≤ 1)
    (h : chooseVariation n (bucketRanges c1 cum ws) = some i) :
    chooseVariation n (bucketRanges c2 cum ws) = some i := by
  induction ws generalizing cum i with
  | nil => simp [bucketRanges, chooseVariation] at h
  | cons w ws ih =>
    have hw0 : 0 ≤ w := hw w (List.mem_cons_self w ws)
    have hwrest : ∀ x ∈ ws, 0 ≤ x := fun x hx => hw x (List.mem_cons_of_mem w hx)
    simp only [bucketRanges, chooseVariation] at h ⊢
    split at h
    · next hcond =>
      simp only [Option.some.injEq] at h
      rw [if_pos]
      · rw [← h]
      · refine ⟨hcond.1, ?_⟩
        have hmul : c1 * w ≤ c2 * w := mul_le_mul_of_nonneg_right h12 hw0
        have := hcond.2
        linarith
    · next hcond =>
      rw [Option.map_eq_some'] at h
      obtain ⟨j, hc, rfl⟩ := h
      have hn : cum + w ≤ n := chooseVariation_start_le n c1 (cum + w) ws j hwrest hc
      rw [if_neg]
      · rw [ih (cum + w) j hwrest hc]
        rfl
      · intro hcon
        have hcw : c2 * w ≤ w := by
          calc c2 * w ≤ 1 * w := mul_le_mul_of_nonneg_right hc2 hw0
          _ = w := one_mul w
        have := hcon.2
        linarith

lemma chooseVariation_bucketRanges_iff (n c cum : ℚ) (ws : List ℚ) (i : Nat)
    (hw : ∀ w ∈ ws, 0 ≤ w) (hc2 : c ≤ 1) :
    chooseVariation n (bucketRanges c cum ws) = some i ↔
      ∃ hi : i < ws.length,
        cum + (ws.take i).sum ≤ n ∧
          n < cum + (ws.take i).sum + c * ws.get ⟨i, hi⟩ := by
  induction ws generalizing cum i with
  | nil =>
    simp [bucketRanges, chooseVariation]
  | cons w ws ih =>
    have hw0 : 0 ≤ w := hw w (List.mem_cons_self w ws)
    have hwrest : ∀ x ∈ ws, 0 ≤ x := fun x hx => hw x (List.mem_cons_of_mem w hx)
    simp only [bucketRanges, chooseVariation]
    cases i with
    | zero =>
      constructor
      · intro h
        split at h
        · next hcond =>
          refine ⟨by simp, ?_, ?_⟩
          · simpa using hcond.1
          · simpa using hcond.2
        · rw [Option.map_eq_some'] at h
          obtain ⟨j, hc, hj⟩ := h
          exact absurd hj (by simp)
      · intro ⟨hi, h1, h2⟩
        rw [if_pos]
        refine ⟨by simpa using h1, by simpa using h2⟩
    | succ j =>
      constructor
      · intro h
        split at h
        · simp at h
        · rw [Option.map_eq_some'] at h
          obtain ⟨j', hc, hj⟩ := h
          have hjj : j' = j := by omega
          subst hjj
          obtain ⟨hi, h1, h2⟩ := (ih (cum + w) j' hwrest).mp hc
          refine ⟨by simpa using Nat.succ_lt_succ hi, ?_, ?_⟩
          · simpa [add_assoc] using h1
          · simpa [add_assoc] using h2
      · intro ⟨hi, h1, h2⟩
        have hi' : j < ws.length := Nat.lt_of_succ_lt_succ hi
        have hsum : 0 ≤ (ws.take j).sum :=
          List.sum_nonneg (fun x hx => hwrest x (List.mem_of_mem_take hx))
        have hstart : cum + w + (ws.take j).sum ≤ n := by
          simpa [add_assoc] using h1
        rw [if_neg]
        · have hrec := (ih (cum + w) j hwrest).mpr
            ⟨hi', by simpa [add_assoc] using h1, by simpa [add_assoc] using h2⟩
          rw [hrec]
          rfl
        · intro hcon
          have hcw : c * w ≤ w := by
            calc c * w ≤ 1 * w := mul_le_mul_of_nonneg_right hc2 hw0
            _ = w := one_mul w
          have := hcon.2
          linarith

lemma expRanges_length {V : Type} (e : Experiment V) (h : weightsMismatch e = false) :
    (expRanges e).length = e.variations.length := by
  unfold expRanges
  rw [bucketRanges_length]
  unfold weightsMismatch at h
  simpa using h

/-- With every eligibility gate passing and the bucket allocation returning
NOT_INCLUDED, the evaluation is excluded with index 0 (this exit fires before
an experiment-authored force is honored). -/
lemma evalMerged_alloc_none {V : Type} (ctx : Context) (e : Experiment V)
    (hEn : ctx.enabled = true)
    (hLen : ¬ e.variations.length < 2)
    (hQS : getQueryStringOverride e.key (ctx.url.getD "") = none)
    (hFV : ctx.forcedVariations.lookup e.key = none)
    (hDr : ¬ e.status = ExpStatus.draft)
    (hAct : e.active = true)
    (hHV : ¬ hashValueOf ctx e = "")
    (hNs : nsPass (hashValueOf ctx e) e.nspace = true)
    (hInc : includePass e.includeCb = true)
    (hCond : condPass e.condition = true)
    (hGrp : groupsPass ctx e.groups = true)
    (hUrl : urlPass ctx e.url = true)
    (hWM : weightsMismatch e = false)
    (hCh : chooseVariation (hashFloat (hashValueOf ctx e ++ e.key)) (expRanges e) = none) :
    evalMerged ctx e = getExperimentResult ctx e 0 false := by
  unfold evalMerged
  rw [hEn, hQS, hFV, hAct, hNs, hInc, hCond, hGrp, hUrl, hWM, hCh,
    if_neg hLen, if_neg hDr, if_neg hHV]
  rfl

/-- With every gate passing and the bucket allocation succeeding, an
experiment-authored force short-circuits to the forced index, not randomly
assigned. -/
lemma evalMerged_alloc_forced {V : Type} (ctx : Context) (e : Experiment V) (v : Nat) (f : Int)
    (hEn : ctx.enabled = true)
    (hLen : ¬ e.variations.length < 2)
    (hQS : getQueryStringOverride e.key (ctx.url.getD "") = none)
    (hFV : ctx.forcedVariations.lookup e.key = none)
    (hDr : ¬ e.status = ExpStatus.draft)
    (hAct : e.active = true)
    (hHV : ¬ hashValueOf ctx e = "")
    (hNs : nsPass (hashValueOf ctx e) e.nspace = true)
    (hInc : includePass e.includeCb = true)
    (hCond : condPass e.condition = true)
    (hGrp : groupsPass ctx e.groups = true)
    (hUrl : urlPass ctx e.url = true)
    (hWM : weightsMismatch e = false)
    (hCh : chooseVariation (hashFloat (hashValueOf ctx e ++ e.key)) (expRanges e) = some v)
    (hF : e.force = some f) :
    evalMerged ctx e = getExperimentResult ctx e f false := by
  unfold evalMerged
  rw [hEn, hQS, hFV, hAct, hNs, hInc, hCond, hGrp, hUrl, hWM, hCh, hF,
    if_neg hLen, if_neg hDr, if_neg hHV]
  rfl

/-- With every gate passing, allocation succeeding and no force, QA mode
excludes. -/
lemma evalMerged_alloc_qa {V : Type} (ctx : Context) (e : Experiment V) (v : Nat)
    (hEn : ctx.enabled = true)
    (hLen : ¬ e.variations.length < 2)
    (hQS : getQueryStringOverride e.key (ctx.url.getD "") = none)
    (hFV : ctx.forcedVariations.lookup e.key = none)
    (hDr : ¬ e.status = ExpStatus.draft)
    (hAct : e.active = true)
    (hHV : ¬ hashValueOf ctx e = "")
    (hNs : nsPass (hashValueOf ctx e) e.nspace = true)
    (hInc : includePass e.includeCb = true)
    (hCond : condPass e.condition = true)
    (hGrp : groupsPass ctx e.groups = true)
    (hUrl : urlPass ctx e.url = true)
    (hWM : weightsMismatch e = false)
    (hCh : chooseVariation (hashFloat (hashValueOf ctx e ++ e.key)) (expRanges e) = some v)
    (hF : e.force = none)
    (hQa : ctx.qaMode = true) :
    evalMerged ctx e = getExperimentResult ctx e 0 false := by
  unfold evalMerged
  rw [hEn, hQS, hFV, hAct, hNs, hInc, hCond, hGrp, hUrl, hWM, hCh, hF, hQa,
    if_neg hLen, if_neg hDr, if_neg hHV]
  rfl

/-- With every gate passing, allocation succeeding, no force and QA mode off,
the stopped status excludes. -/
lemma evalMerged_alloc_stopped {V : Type} (ctx : Context) (e : Experiment V) (v : Nat)
    (hEn : ctx.enabled = true)
    (hLen : ¬ e.variations.length < 2)
    (hQS : getQueryStringOverride e.key (ctx.url.getD "") = none)
    (hFV : ctx.forcedVariations.lookup e.key = none)
    (hAct : e.active = true)
    (hHV : ¬ hashValueOf ctx e = "")
    (hNs : nsPass (hashValueOf ctx e) e.nspace = true)
    (hInc : includePass e.includeCb = true)
    (hCond : condPass e.condition = true)
    (hGrp : groupsPass ctx e.groups = true)
    (hUrl : urlPass ctx e.url = true)
    (hWM : weightsMismatch e = false)
    (hCh : chooseVariation (hashFloat (hashValueOf ctx e ++ e.key)) (expRanges e) = some v)
    (hF : e.force = none)
    (hQa : ctx.qaMode = false)
    (hStop : e.status = ExpStatus.stopped) :
    evalMerged ctx e = getExperimentResult ctx e 0 false := by
  unfold evalMerged
  rw [hEn, hQS, hFV, hAct, hNs, hInc, hCond, hGrp, hUrl, hWM, hCh, hF, hQa, hStop,
    if_neg hLen, if_neg hHV]
  rfl

/-- With every gate passing, allocation succeeding, no force of any kind, QA
mode off and a running status, the user is randomly included at the allocated
index. -/
lemma evalMerged_included {V : Type} (ctx : Context) (e : Experiment V) (v : Nat)
    (hEn : ctx.enabled = true)
    (hLen : ¬ e.variations.length < 2)
    (hQS : getQueryStringOverride e.key (ctx.url.getD "") = none)
    (hFV : ctx.forcedVariations.lookup e.key = none)
    (hRun : e.status = ExpStatus.running)
    (hAct : e.active = true)
    (hHV : ¬ hashValueOf ctx e = "")
    (hNs : nsPass (hashValueOf ctx e) e.nspace = true)
    (hInc : includePass e.includeCb = true)
    (hCond : condPass e.condition = true)
    (hGrp : groupsPass ctx e.groups = true)
    (hUrl : urlPass ctx e.url = true)
    (hWM : weightsMismatch e = false)
    (hCh : chooseVariation (hashFloat (hashValueOf ctx e ++ e.key)) (expRanges e) = some v)
    (hF : e.force = none)
    (hQa : ctx.qaMode = false) :
    evalMerged ctx e = getExperimentResult ctx e (Int.ofNat v) true := by
  unfold evalMerged
  rw [hEn, hQS, hFV, hAct, hNs, hInc, hCond, hGrp, hUrl, hWM, hCh, hF, hQa, hRun,
    if_neg hLen, if_neg hHV]
  rfl

/-! Exit lemmas: each short-circuit state of the pipeline, given that all
earlier gates passed. -/

lemma evalMerged_exit_disabled {V : Type} (ctx : Context) (e : Experiment V)
    (hEn : ctx.enabled = false) :
    evalMerged ctx e = getExperimentResult ctx e 0 false := by
  unfold evalMerged
  rw [hEn]
  rfl

lemma evalMerged_exit_short {V : Type} (ctx : Context) (e : Experiment V)
    (hEn : ctx.enabled = true) (hLen : e.variations.length < 2) :
    evalMerged ctx e = getExperimentResult ctx e 0 false := by
  unfold evalMerged
  rw [hEn, if_pos hLen]
  rfl

lemma evalMerged_exit_qs {V : Type} (ctx : Context) (e : Experiment V) (v : Nat)
    (hEn : ctx.enabled = true) (hLen : ¬ e.variations.length < 2)
    (hQS : getQueryStringOverride e.key (ctx.url.getD "") = some v) :
    evalMerged ctx e = getExperimentResult ctx e (Int.ofNat v) false := by
  unfold evalMerged
  rw [hEn, hQS, if_neg hLen]
  rfl

lemma evalMerged_exit_fv {V : Type} (ctx : Context) (e : Experiment V) (v : Int)
    (hEn : ctx.enabled = true) (hLen : ¬ e.variations.length < 2)
    (hQS : getQueryStringOverride e.key (ctx.url.getD "") = none)
    (hFV : ctx.forcedVariations.lookup e.key = some v) :
    evalMerged ctx e = getExperimentResult ctx e v false := by
  unfold evalMerged
  rw [hEn, hQS, hFV, if_neg hLen]
  rfl

lemma evalMerged_exit_draft {V : Type} (ctx : Context) (e : Experiment V)
    (hEn : ctx.enabled = true) (hLen : ¬ e.variations.length < 2)
    (hQS : getQueryStringOverride e.key (ctx.url.getD "") = none)
    (hFV : ctx.forcedVariations.lookup e.key = none)
    (hDr : e.status = ExpStatus.draft) :
    evalMerged ctx e = getExperimentResult ctx e 0 false := by
  unfold evalMerged
  rw [hEn, hQS, hFV, if_neg hLen, if_pos hDr]
  rfl

lemma evalMerged_exit_inactive {V : Type} (ctx : Context) (e : Experiment V)
    (hEn : ctx.enabled = true) (hLen : ¬ e.variations.length < 2)
    (hQS : getQueryStringOverride e.key (ctx.url.getD "") = none)
    (hFV : ctx.forcedVariations.lookup e.key = none)
    (hDr : ¬ e.status = ExpStatus.draft) (hAct : e.active = false) :
    evalMerged ctx e = getExperimentResult ctx e 0 false := by
  unfold evalMerged
  rw [hEn, hQS, hFV, hAct, if_neg hLen, if_neg hDr]
  rfl

lemma evalMerged_exit_noid {V : Type} (ctx : Context) (e : Experiment V)
    (hEn : ctx.enabled = true) (hLen : ¬ e.variations.length < 2)
    (hQS : getQueryStringOverride e.key (ctx.url.getD "") = none)
    (hFV : ctx.forcedVariations.lookup e.key = none)
    (hDr : ¬ e.status = ExpStatus.draft) (hAct : e.active = true)
    (hHV : hashValueOf ctx e = "") :
    evalMerged ctx e = getExperimentResult ctx e 0 false := by
  unfold evalMerged
  rw [hEn, hQS, hFV, hAct, if_neg hLen, if_neg hDr, if_pos hHV]
  rfl

lemma evalMerged_exit_ns {V : Type} (ctx : Context) (e : Experiment V)
    (hEn : ctx.enabled = true) (hLen : ¬ e.variations.length < 2)
    (hQS : getQueryStringOverride e.key (ctx.url.getD "") = none)
    (hFV : ctx.forcedVariations.lookup e.key = none)
    (hDr : ¬ e.status = ExpStatus.draft) (hAct : e.active = true)
    (hHV : ¬ hashValueOf ctx e = "")
    (hNs : nsPass (hashValueOf ctx e) e.nspace = false) :
    evalMerged ctx e = getExperimentResult ctx e 0 false := by
  unfold evalMerged
  rw [hEn, hQS, hFV, hAct, hNs, if_neg hLen, if_neg hDr, if_neg hHV]
  rfl

lemma evalMerged_exit_include {V : Type} (ctx : Context) (e : Experiment V)
    (hEn : ctx.enabled = true) (hLen : ¬ e.variations.length < 2)
    (hQS : getQueryStringOverride e.key (ctx.url.getD "") = none)
    (hFV : ctx.forcedVariations.lookup e.key = none)
    (hDr : ¬ e.status = ExpStatus.draft) (hAct : e.active = true)
    (hHV : ¬ hashValueOf ctx e = "")
    (hNs : nsPass (hashValueOf ctx e) e.nspace = true)
    (hInc : includePass e.includeCb = false) :
    evalMerged ctx e = getExperimentResult ctx e 0 false := by
  unfold evalMerged
  rw [hEn, hQS, hFV, hAct, hNs, hInc, if_neg hLen, if_neg hDr, if_neg hHV]
  rfl

lemma evalMerged_exit_cond {V : Type} (ctx : Context) (e : Experiment V)
    (hEn : ctx.enabled = true) (hLen : ¬ e.variations.length < 2)
    (hQS : getQueryStringOverride e.key (ctx.url.getD "") = none)
    (hFV : ctx.forcedVariations.lookup e.key = none)
    (hDr : ¬ e.status = ExpStatus.draft) (hAct : e.active = true)
    (hHV : ¬ hashValueOf ctx e = "")
    (hNs : nsPass (hashValueOf ctx e) e.nspace = true)
    (hInc : includePass e.includeCb = true)
    (hCond : condPass e.condition = false) :
    evalMerged ctx e = getExperimentResult ctx e 0 false := by
  unfold evalMerged
  rw [hEn, hQS, hFV, hAct, hNs, hInc, hCond, if_neg hLen, if_neg hDr, if_neg hHV]
  rfl

lemma evalMerged_exit_groups {V : Type} (ctx : Context) (e : Experiment V)
    (hEn : ctx.enabled = true) (hLen : ¬ e.variations.length < 2)
    (hQS : getQueryStringOverride e.key (ctx.url.getD "") = none)
    (hFV : ctx.forcedVariations.lookup e.key = none)
    (hDr : ¬ e.status = ExpStatus.draft) (hAct : e.active = true)
    (hHV : ¬ hashValueOf ctx e = "")
    (hNs : nsPass (hashValueOf ctx e) e.nspace = true)
    (hInc : includePass e.includeCb = true)
    (hCond : condPass e.condition = true)
    (hGrp : groupsPass ctx e.groups = false) :
    evalMerged ctx e = getExperimentResult ctx e 0 false := by
  unfold evalMerged
  rw [hEn, hQS, hFV, hAct, hNs, hInc, hCond, hGrp, if_neg hLen, if_neg hDr, if_neg hHV]
  rfl

lemma evalMerged_exit_url {V : Type} (ctx : Context) (e : Experiment V)
    (hEn : ctx.enabled = true) (hLen : ¬ e.variations.length < 2)
    (hQS : getQueryStringOverride e.key (ctx.url.getD "") = none)
    (hFV : ctx.forcedVariations.lookup e.key = none)
    (hDr : ¬ e.status = ExpStatus.draft) (hAct : e.active = true)
    (hHV : ¬ hashValueOf ctx e = "")
    (hNs : nsPass (hashValueOf ctx e) e.nspace = true)
    (hInc : includePass e.includeCb = true)
    (hCond : condPass e.condition = true)
    (hGrp : groupsPass ctx e.groups = true)
    (hUrl : urlPass ctx e.url = false) :
    evalMerged ctx e = getExperimentResult ctx e 0 false := by
  unfold evalMerged
  rw [hEn, hQS, hFV, hAct, hNs, hInc, hCond, hGrp, hUrl,
    if_neg hLen, if_neg hDr, if_neg hHV]
  rfl

lemma evalMerged_exit_weights {V : Type} (ctx : Context) (e : Experiment V)
    (hEn : ctx.enabled = true) (hLen : ¬ e.variations.length < 2)
    (hQS : getQueryStringOverride e.key (ctx.url.getD "") = none)
    (hFV : ctx.forcedVariations.lookup e.key = none)
    (hDr : ¬ e.status = ExpStatus.draft) (hAct : e.active = true)
    (hHV : ¬ hashValueOf ctx e = "")
    (hNs : nsPass (hashValueOf ctx e) e.nspace = true)
    (hInc : includePass e.includeCb = true)
    (hCond : condPass e.condition = true)
    (hGrp : groupsPass ctx e.groups = true)
    (hUrl : urlPass ctx e.url = true)
    (hWM : weightsMismatch e = true) :
    evalMerged ctx e = getExperimentResult ctx e 0 false := by
  unfold evalMerged
  rw [hEn, hQS, hFV, hAct, hNs, hInc, hCond, hGrp, hUrl, hWM,
    if_neg hLen, if_neg hDr, if_neg hHV]
  rfl

/-- Inversion: a randomly-included result can only come from the final pipeline
state, so every gate passed, no force of any kind applied, QA mode was off, the
status was running, and the bucket allocation chose exactly the reported
variation index. -/
lemma evalMerged_inversion {V : Type} (ctx : Context) (e : Experiment V)
    (h : (evalMerged ctx e).inExperiment = true) :
    ctx.enabled = true ∧ ¬ e.variations.length < 2 ∧
    getQueryStringOverride e.key (ctx.url.getD "") = none ∧
    ctx.forcedVariations.lookup e.key = none ∧
    e.status = ExpStatus.running ∧ e.active = true ∧
    ¬ hashValueOf ctx e = "" ∧
    nsPass (hashValueOf ctx e) e.nspace = true ∧
    includePass e.includeCb = true ∧
    condPass e.condition = true ∧
    groupsPass ctx e.groups = true ∧
    urlPass ctx e.url = true ∧
    weightsMismatch e = false ∧
    e.force = none ∧ ctx.qaMode = false ∧
    ∃ v, chooseVariation (hashFloat (hashValueOf ctx e ++ e.key)) (expRanges e) = some v ∧
      evalMerged ctx e = getExperimentResult ctx e (Int.ofNat v) true ∧
      (evalMerged ctx e).variationId = v := by
  have hEn : ctx.enabled = true := by
    by_contra hc
    rw [evalMerged_exit_disabled ctx e (by simpa using hc)] at h
    simp at h
  have hLen : ¬ e.variations.length < 2 := by
    intro hc
    rw [evalMerged_exit_short ctx e hEn hc] at h
    simp at h
  have hQS : getQueryStringOverride e.key (ctx.url.getD "") = none := by
    cases hq : getQueryStringOverride e.key (ctx.url.getD "") with
    | none => rfl
    | some v => rw [evalMerged_exit_qs ctx e v hEn hLen hq] at h; simp at h
  have hFV : ctx.forcedVariations.lookup e.key = none := by
    cases hq : ctx.forcedVariations.lookup e.key with
    | none => rfl
    | some v => rw [evalMerged_exit_fv ctx e v hEn hLen hQS hq] at h; simp at h
  have hDr : ¬ e.status = ExpStatus.draft := by
    intro hc
    rw [evalMerged_exit_draft ctx e hEn hLen hQS hFV hc] at h
    simp at h
  have hAct : e.active = true := by
    by_contra hc
    rw [evalMerged_exit_inactive ctx e hEn hLen hQS hFV hDr (by simpa using hc)] at h
    simp at h
  have hHV : ¬ hashValueOf ctx e = "" := by
    intro hc
    rw [evalMerged_exit_noid ctx e hEn hLen hQS hFV hDr hAct hc] at h
    simp at h
  have hNs : nsPass (hashValueOf ctx e) e.nspace = true := by
    by_contra hc
    rw [evalMerged_exit_ns ctx e hEn hLen hQS hFV hDr hAct hHV (by simpa using hc)] at h
    simp at h
  have hInc : includePass e.includeCb = true := by
    by_contra hc
    rw [evalMerged_exit_include ctx e hEn hLen hQS hFV hDr hAct hHV hNs
      (by simpa using hc)] at h
    simp at h
  have hCond : condPass e.condition = true := by
    by_contra hc
    rw [evalMerged_exit_cond ctx e hEn hLen hQS hFV hDr hAct hHV hNs hInc
      (by simpa using hc)] at h
    simp at h
  have hGrp : groupsPass ctx e.groups = true := by
    by_contra hc
    rw [evalMerged_exit_groups ctx e hEn hLen hQS hFV hDr hAct hHV hNs hInc hCond
      (by simpa using hc)] at h
    simp at h
  have hUrl : urlPass ctx e.url = true := by
    by_contra hc
    rw [evalMerged_exit_url ctx e hEn hLen hQS hFV hDr hAct hHV hNs hInc hCond hGrp
      (by simpa using hc)] at h
    simp at h
  have hWM : weightsMismatch e = false := by
    by_contra hc
    rw [evalMerged_exit_weights ctx e hEn hLen hQS hFV hDr hAct hHV hNs hInc hCond hGrp
      hUrl (by simpa using hc)] at h
    simp at h
  cases hCh : chooseVariation (hashFloat (hashValueOf ctx e ++ e.key)) (expRanges e) with
  | none =>
    rw [evalMerged_alloc_none ctx e hEn hLen hQS hFV hDr hAct hHV hNs hInc hCond
      hGrp hUrl hWM hCh] at h
    simp at h
  | some v =>
    cases hF : e.force with
    | some f =>
      rw [evalMerged_alloc_forced ctx e v f hEn hLen hQS hFV hDr hAct hHV hNs hInc
        hCond hGrp hUrl hWM hCh hF] at h
      simp at h
    | none =>
      have hQa : ctx.qaMode = false := by
        by_contra hc
        rw [evalMerged_alloc_qa ctx e v hEn hLen hQS hFV hDr hAct hHV hNs hInc hCond
          hGrp hUrl hWM hCh hF (by simpa using hc)] at h
        simp at h
      have hStop : ¬ e.status = ExpStatus.stopped := by
        intro hc
        rw [evalMerged_alloc_stopped ctx e v hEn hLen hQS hFV hAct hHV hNs hInc hCond
          hGrp hUrl hWM hCh hF hQa hc] at h
        simp at h
      have hv : v < e.variations.length := by
        have hlt := chooseVariation_lt_length _ _ _ hCh
        rwa [expRanges_length e hWM] at hlt
      have hRun : e.status = ExpStatus.running := by
        cases hs : e.status with
        | running => rfl
        | draft => exact absurd hs hDr
        | stopped => exact absurd hs hStop
      have heq : evalMerged ctx e = getExperimentResult ctx e (Int.ofNat v) true :=
        evalMerged_included ctx e v hEn hLen hQS hFV hRun hAct hHV hNs hInc hCond
          hGrp hUrl hWM hCh hF hQa
      refine ⟨hEn, hLen, hQS, hFV, hRun, hAct, hHV, hNs, hInc, hCond, hGrp, hUrl,
        hWM, rfl, hQa, v, rfl, heq, ?_⟩
      rw [heq, getExperimentResult_variationId, clampIndex_ofNat hv]

/-! Run-level lemmas about the mutable engine state. -/

lemma clampIndex_zero (len : Nat) : clampIndex len 0 = 0 := by
  unfold clampIndex
  split <;> rfl

lemma run_trackLog_of_excluded {V : Type} (ctx : Context) (s : EngineState)
    (e : Experiment V) (h : (evalResult ctx e).inExperiment = false) :
    (run ctx s e).2.trackLog = s.trackLog := by
  simp [run, h]

/-- One call to `run` either leaves the tracking state alone, or fires the
tracking callback exactly once: it then records one previously-untracked
(key, variation id, hash value) combination, and only on a randomly-included
evaluation. -/
lemma run_state_char {V : Type} (ctx : Context) (s : EngineState) (e : Experiment V) :
    ((run ctx s e).2.tracked = s.tracked ∧ (run ctx s e).2.trackLog = s.trackLog) ∨
    (∃ t, t ∉ s.tracked ∧ (run ctx s e).2.tracked = t :: s.tracked ∧
      (run ctx s e).2.trackLog = s.trackLog ++ [t] ∧
      (evalResult ctx e).inExperiment = true) := by
  by_cases hin : (evalResult ctx e).inExperiment = true
  · by_cases hmem :
      (e.key, (evalResult ctx e).variationId, (evalResult ctx e).hashValue) ∈ s.tracked
    · left
      constructor <;> simp [run, hin, hmem]
    · right
      exact ⟨_, hmem, by simp [run, hin, hmem], by simp [run, hin, hmem], hin⟩
  · left
    constructor <;> simp [run, hin]

lemma run_trackLog_new {V : Type} (ctx : Context) (s : EngineState) (e : Experiment V)
    (hin : (evalResult ctx e).inExperiment = true)
    (hmem : (e.key, (evalResult ctx e).variationId, (evalResult ctx e).hashValue) ∉ s.tracked) :
    (run ctx s e).2.trackLog =
      s.trackLog ++ [(e.key, (evalResult ctx e).variationId, (evalResult ctx e).hashValue)] := by
  simp [run, hin, hmem]

lemma run_trackLog_dup {V : Type} (ctx : Context) (s : EngineState) (e : Experiment V)
    (hin : (evalResult ctx e).inExperiment = true)
    (hmem : (e.key, (evalResult ctx e).variationId, (evalResult ctx e).hashValue) ∈ s.tracked) :
    (run ctx s e).2.trackLog = s.trackLog := by
  simp [run, hin, hmem]

lemma run_tracked_mem {V : Type} (ctx : Context) (s : EngineState) (e : Experiment V)
    (hin : (evalResult ctx e).inExperiment = true) :
    (e.key, (evalResult ctx e).variationId, (evalResult ctx e).hashValue) ∈
      (run ctx s e).2.tracked := by
  by_cases hmem :
      (e.key, (evalResult ctx e).variationId, (evalResult ctx e).hashValue) ∈ s.tracked <;>
    simp [run, hin, hmem]

/-- The tracking-log invariant: no combination is logged twice, and everything
logged is recorded in the dedup set. -/
def TrackInv (s : EngineState) : Prop :=
  s.trackLog.Nodup ∧ ∀ t ∈ s.trackLog, t ∈ s.tracked

lemma run_preserves_TrackInv {V : Type} (ctx : Context) (s : EngineState)
    (e : Experiment V) (h : TrackInv s) : TrackInv (run ctx s e).2 := by
  obtain ⟨hnd, hsub⟩ := h
  rcases run_state_char ctx s e with ⟨ht, hl⟩ | ⟨t, hmem, ht, hl, _⟩
  · exact ⟨hl ▸ hnd, fun u hu => ht ▸ hsub u (hl ▸ hu)⟩
  · constructor
    · rw [hl]
      have htl : t ∉ s.trackLog := fun hc => hmem (hsub t hc)
      simp [List.nodup_append, hnd, htl]
    · intro u hu
      rw [hl] at hu
      rw [ht]
      rcases List.mem_append.mp hu with hu | hu
      · exact List.mem_cons_of_mem t (hsub u hu)
      · simp only [List.mem_singleton] at hu
        rw [hu]
        exact List.mem_cons_self t s.tracked

lemma runMany_TrackInv {V : Type} (evals : List (Context × Experiment V))
    (s : EngineState) (h : TrackInv s) : TrackInv (runMany evals s) := by
  induction evals generalizing s with
  | nil => simpa [runMany] using h
  | cons ce evals ih =>
    have hstep : runMany (ce :: evals) s = runMany evals (run ce.1 s ce.2).2 := by
      simp [runMany]
    rw [hstep]
    exact ih _ (run_preserves_TrackInv ce.1 s ce.2 h)

lemma initState_TrackInv : TrackInv initState :=
  ⟨List.nodup_nil, by simp [initState]⟩

lemma run_repeat_silent {V : Type} (ctx : Context) (s : EngineState) (e : Experiment V) :
    (run ctx (run ctx s e).2 e).2.trackLog = (run ctx s e).2.trackLog := by
  by_cases hin : (evalResult ctx e).inExperiment = true
  · exact run_trackLog_dup ctx _ e hin (run_tracked_mem ctx s e hin)
  · exact run_trackLog_of_excluded ctx _ e (by simpa using hin)

/-- Every terminal state of the pipeline returns a result built by
`getExperimentResult`, whatever the input. -/
lemma evalMerged_shape {V : Type} (ctx : Context) (e : Experiment V) :
    ∃ (i : Int) (b : Bool), evalMerged ctx e = getExperimentResult ctx e i b := by
  by_cases hEn : ctx.enabled = true
  case neg =>
    exact ⟨0, false, evalMerged_exit_disabled ctx e (by simpa using hEn)⟩
  by_cases hLen : e.variations.length < 2
  case pos =>
    exact ⟨0, false, evalMerged_exit_short ctx e hEn hLen⟩
  cases hQS : getQueryStringOverride e.key (ctx.url.getD "") with
  | some v => exact ⟨Int.ofNat v, false, evalMerged_exit_qs ctx e v hEn hLen hQS⟩
  | none =>
  cases hFV : ctx.forcedVariations.lookup e.key with
  | some v => exact ⟨v, false, evalMerged_exit_fv ctx e v hEn hLen hQS hFV⟩
  | none =>
  by_cases hDr : e.status = ExpStatus.draft
  case pos =>
    exact ⟨0, false, evalMerged_exit_draft ctx e hEn hLen hQS hFV hDr⟩
  by_cases hAct : e.active = true
  case neg =>
    exact ⟨0, false, evalMerged_exit_inactive ctx e hEn hLen hQS hFV hDr (by simpa using hAct)⟩
  by_cases hHV : hashValueOf ctx e = ""
  case pos =>
    exact ⟨0, false, evalMerged_exit_noid ctx e hEn hLen hQS hFV hDr hAct hHV⟩
  by_cases hNs : nsPass (hashValueOf ctx e) e.nspace = true
  case neg =>
    exact ⟨0, false, evalMerged_exit_ns ctx e hEn hLen hQS hFV hDr hAct hHV (by simpa using hNs)⟩
  by_cases hInc : includePass e.includeCb = true
  case neg =>
    exact ⟨0, false, evalMerged_exit_include ctx e hEn hLen hQS hFV hDr hAct hHV hNs
      (by simpa using hInc)⟩
  by_cases hCond : condPass e.condition = true
  case neg =>
    exact ⟨0, false, evalMerged_exit_cond ctx e hEn hLen hQS hFV hDr hAct hHV hNs hInc
      (by simpa using hCond)⟩
  by_cases hGrp : groupsPass ctx e.groups = true
  case neg =>
    exact ⟨0, false, evalMerged_exit_groups ctx e hEn hLen hQS hFV hDr hAct hHV hNs hInc
      hCond (by simpa using hGrp)⟩
  by_cases hUrl : urlPass ctx e.url = true
  case neg =>
    exact ⟨0, false, evalMerged_exit_url ctx e hEn hLen hQS hFV hDr hAct hHV hNs hInc
      hCond hGrp (by simpa using hUrl)⟩
  by_cases hWM : weightsMismatch e = true
  case pos =>
    exact ⟨0, false, evalMerged_exit_weights ctx e hEn hLen hQS hFV hDr hAct hHV hNs hInc
      hCond hGrp hUrl hWM⟩
  have hWM' : weightsMismatch e = false := by simpa using hWM
  cases hCh : chooseVariation (hashFloat (hashValueOf ctx e ++ e.key)) (expRanges e) with
  | none =>
    exact ⟨0, false, evalMerged_alloc_none ctx e hEn hLen hQS hFV hDr hAct hHV hNs hInc
      hCond hGrp hUrl hWM' hCh⟩
  | some v =>
  cases hF : e.force with
  | some f =>
    exact ⟨f, false, evalMerged_alloc_forced ctx e v f hEn hLen hQS hFV hDr hAct hHV hNs
      hInc hCond hGrp hUrl hWM' hCh hF⟩
  | none =>
  by_cases hQa : ctx.qaMode = true
  case pos =>
    exact ⟨0, false, evalMerged_alloc_qa ctx e v hEn hLen hQS hFV hDr hAct hHV hNs hInc
      hCond hGrp hUrl hWM' hCh hF hQa⟩
  have hQa' : ctx.qaMode = false := by simpa using hQa
  by_cases hStop : e.status = ExpStatus.stopped
  case pos =>
    exact ⟨0, false, evalMerged_alloc_stopped ctx e v hEn hLen hQS hFV hAct hHV hNs hInc
      hCond hGrp hUrl hWM' hCh hF hQa' hStop⟩
  have hRun : e.status = ExpStatus.running := by
    cases hs : e.status with
    | running => rfl
    | draft => exact absurd hs hDr
    | stopped => exact absurd hs hStop
  exact ⟨Int.ofNat v, true, evalMerged_included ctx e v hEn hLen hQS hFV hRun hAct hHV
    hNs hInc hCond hGrp hUrl hWM' hCh hF hQa'⟩

/-- Modelled from the spec: the Bucketing Hash seed in the order the spec
sentence asserts, experiment key first and then the hash-attribute value (the
conformance vectors show the engine actually hashes value first, then key). -/
def bucketSpecOrder (key hashValue : String) : ℚ := hashFloat (key ++ hashValue)

/-- C1 (counterexample): with the seed order the claim asserts (experiment key
followed by the hash value), identifier "1" hashes to 225/1000 and is assigned
variation 0, while the engine, reproducing the test suite's canonical
conformance vector, assigns identifier "1" variation 1.  The claimed seed order
is inconsistent with the claimed variation sequence. -/
theorem c1_seed_order_counterexample :
    bucketSpecOrder "my-test" "1" = 225 / 1000 ∧
    chooseVariation (bucketSpecOrder "my-test" "1")
      (bucketRanges 1 0 (getEqualWeights 2)) = some 0 ∧
    (run { user := [("id", "1")] } initState
      { key := "my-test", variations := ([0, 1] : List Nat) }).1.variationId = 1 := by
  refine ⟨by decide, by decide, by decide⟩

/-- C1 (amended): the bucketing value is the 32-bit FNV-1a hash of the UTF-8
bytes of the seed, reduced to (hash mod 1000)/1000, where the seed is the
hash-attribute value followed by the experiment key, in that order with no
separator; under that seed the two-variation default-weights full-coverage
experiment assigns identifiers "1" through "9" exactly the sequence
1,0,0,1,1,1,0,1,0. -/
theorem c1_conformance_vector :
    hashFloat ("1" ++ "my-test") = 969 / 1000 ∧
    ((["1", "2", "3", "4", "5", "6", "7", "8", "9"].map (fun id =>
      (run { user := [("id", id)] } initState
        { key := "my-test", variations := ([0, 1] : List Nat) }).1.variationId)) =
      [1, 0, 0, 1, 1, 1, 0, 1, 0]) := by
  refine ⟨by decide, by decide⟩

/-- C2: repeated evaluation of the same experiment with an unchanged Context
returns an identical Experiment Result, no matter how the first call and any
number of interleaved evaluations have mutated the assignment table and the
tracking-deduplication state. -/
theorem c2_run_deterministic {V : Type} (ctx : Context) (s : EngineState)
    (e : Experiment V) (evals : List (Context × Experiment V)) :
    (run ctx (runMany evals (run ctx s e).2) e).1 = (run ctx s e).1 := by
  rw [run_fst, run_fst]

/-- C3: when the resolved experiment has an explicit force index but the
user's hash falls outside the coverage-allocated ranges, the forced result is
not honored: the evaluation returns inExperiment = false and variationId = 0. -/
theorem c3_force_denied_by_coverage {V : Type} (ctx : Context) (s : EngineState)
    (e : Experiment V) (f : Int)
    (hEn : ctx.enabled = true)
    (hLen : ¬ (mergedExp ctx e).variations.length < 2)
    (hQS : getQueryStringOverride (mergedExp ctx e).key (ctx.url.getD "") = none)
    (hFV : ctx.forcedVariations.lookup (mergedExp ctx e).key = none)
    (hDr : ¬ (mergedExp ctx e).status = ExpStatus.draft)
    (hAct : (mergedExp ctx e).active = true)
    (hHV : ¬ hashValueOf ctx (mergedExp ctx e) = "")
    (hNs : nsPass (hashValueOf ctx (mergedExp ctx e)) (mergedExp ctx e).nspace = true)
    (hInc : includePass (mergedExp ctx e).includeCb = true)
    (hCond : condPass (mergedExp ctx e).condition = true)
    (hGrp : groupsPass ctx (mergedExp ctx e).groups = true)
    (hUrl : urlPass ctx (mergedExp ctx e).url = true)
    (hWM : weightsMismatch (mergedExp ctx e) = false)
    (hF : (mergedExp ctx e).force = some f)
    (hCh : chooseVariation
      (hashFloat (hashValueOf ctx (mergedExp ctx e) ++ (mergedExp ctx e).key))
      (expRanges (mergedExp ctx e)) = none) :
    (run ctx s e).1.inExperiment = false ∧ (run ctx s e).1.variationId = 0 := by
  have hres : (run ctx s e).1 = getExperimentResult ctx (mergedExp ctx e) 0 false := by
    rw [run_fst]
    exact evalMerged_alloc_none ctx (mergedExp ctx e) hEn hLen hQS hFV hDr hAct hHV
      hNs hInc hCond hGrp hUrl hWM hCh
  constructor
  · rw [hres]
    rfl
  · rw [hres, getExperimentResult_variationId, clampIndex_zero]

/-- C3 witness: the conformance scenario, coverage 0.01 with force 1 and
identifier "1" (which hashes to 0.969, outside every covered range). -/
theorem c3_force_denied_by_coverage_witness :
    (run { user := [("id", "1")] } initState
      { key := "my-test", force := some 1, coverage := some (1/100),
        variations := ([0, 1] : List Nat) }).1.inExperiment = false ∧
    (run { user := [("id", "1")] } initState
      { key := "my-test", force := some 1, coverage := some (1/100),
        variations := ([0, 1] : List Nat) }).1.variationId = 0 :=
  c3_force_denied_by_coverage { user := [("id", "1")] } initState
    { key := "my-test", force := some 1, coverage := some (1/100),
      variations := ([0, 1] : List Nat) } 1
    (by decide) (by decide) (by decide) (by decide) (by decide) (by decide) (by decide)
    (by decide) (by decide) (by decide) (by decide) (by decide) (by decide) (by decide)
    (by decide)

/-- C4 (counterexample): the included region is not a contiguous prefix of
size coverage times the weight sum.  Identifier "8" hashes to 0.516, strictly
greater than coverage times the weight sum (0.4), yet with two even weights
and coverage 0.4 it is assigned variation 1 — exactly what the repository's
coverage conformance vector expects. -/
theorem c4_allocation_not_prefix_counterexample :
    hashFloat ("8" ++ "my-test") = 516 / 1000 ∧
    (2/5 : ℚ) * (1/2 + 1/2) < 516 / 1000 ∧
    chooseVariation (516 / 1000) (bucketRanges (2/5) 0 (getEqualWeights 2)) = some 1 ∧
    (run { user := [("id", "8")] } initState
      { key := "my-test", variations := ([0, 1] : List Nat),
        coverage := some (2/5) }).1.inExperiment = true ∧
    (run { user := [("id", "8")] } initState
      { key := "my-test", variations := ([0, 1] : List Nat),
        coverage := some (2/5) }).1.variationId = 1 := by
  refine ⟨by decide, by decide, by decide, by decide, by decide⟩

/-- C4 (amended): the partitioner assigns variation i exactly when the hash
float lies in the half-open range [cum_i, cum_i + coverage * w_i), where cum_i
is the sum of the weights before i: each variation keeps only the first
coverage fraction of its own weight slice, and floats in the gaps — or past
the last range — are NOT_INCLUDED. -/
theorem c4_allocation_characterization (n c : ℚ) (ws : List ℚ) (i : Nat)
    (hw : ∀ w ∈ ws, 0 ≤ w) (hc : c ≤ 1) :
    chooseVariation n (bucketRanges c 0 ws) = some i ↔
      ∃ hi : i < ws.length,
        (ws.take i).sum ≤ n ∧ n < (ws.take i).sum + c * ws.get ⟨i, hi⟩ := by
  have h := chooseVariation_bucketRanges_iff n c 0 ws i hw hc
  simpa using h

/-- C4 witness: the characterization evaluated at the counterexample point,
hash float 0.516 with even weights and coverage 0.4. -/
theorem c4_allocation_characterization_witness :
    (∀ w ∈ [(1:ℚ)/2, 1/2], 0 ≤ w) ∧ ((2:ℚ)/5 ≤ 1) ∧
    (chooseVariation (516/1000) (bucketRanges (2/5) 0 [(1:ℚ)/2, 1/2]) = some 1 ↔
      ∃ hi : 1 < ([(1:ℚ)/2, 1/2]).length,
        (([(1:ℚ)/2, 1/2]).take 1).sum ≤ 516/1000 ∧
          516/1000 < (([(1:ℚ)/2, 1/2]).take 1).sum +
            (2/5) * ([(1:ℚ)/2, 1/2]).get ⟨1, hi⟩) :=
  ⟨by decide, by decide,
    c4_allocation_characterization (516/1000) (2/5) [(1:ℚ)/2, 1/2] 1 (by decide) (by decide)⟩

/-- C5: coverage is monotone.  If an identifier is randomly included with
variation v at coverage c1, then with coverage c2 > c1 (all other inputs equal)
it is still included with the same variation. -/
theorem c5_coverage_monotone {V : Type} (ctx : Context) (s : EngineState)
    (e : Experiment V) (c1 c2 : ℚ)
    (hov : ctx.overrides.lookup e.key = none)
    (hw : ∀ w ∈ expWeights e, 0 ≤ w)
    (h12 : c1 < c2) (hc2 : c2 ≤ 1)
    (hIn : (run ctx s { e with coverage := some c1 }).1.inExperiment = true) :
    (run ctx s { e with coverage := some c2 }).1.inExperiment = true ∧
    (run ctx s { e with coverage := some c2 }).1.variationId =
      (run ctx s { e with coverage := some c1 }).1.variationId := by
  rw [run_fst] at hIn
  have hIn' : (evalMerged ctx { e with coverage := some c1 }).inExperiment = true := by
    unfold evalResult at hIn
    rwa [mergedExp_of_lookup_none ctx { e with coverage := some c1 } hov] at hIn
  obtain ⟨hEn, hLen, hQS, hFV, hRun, hAct, hHV, hNs, hInc, hCond, hGrp, hUrl, hWM,
    hF, hQa, v, hCh, heq1, hvid⟩ := evalMerged_inversion ctx _ hIn'
  have hch1 : chooseVariation (hashFloat (hashValueOf ctx e ++ e.key))
      (bucketRanges c1 0 (expWeights e)) = some v := hCh
  have hch2 : chooseVariation (hashFloat (hashValueOf ctx e ++ e.key))
      (bucketRanges c2 0 (expWeights e)) = some v :=
    chooseVariation_mono _ c1 c2 0 (expWeights e) v hw (le_of_lt h12) hc2 hch1
  have hCh2 : chooseVariation
      (hashFloat (hashValueOf ctx { e with coverage := some c2 } ++
        ({ e with coverage := some c2 } : Experiment V).key))
      (expRanges { e with coverage := some c2 }) = some v := hch2
  have heq2 : evalMerged ctx { e with coverage := some c2 } =
      getExperimentResult ctx { e with coverage := some c2 } (Int.ofNat v) true :=
    evalMerged_included ctx { e with coverage := some c2 } v hEn hLen hQS hFV hRun
      hAct hHV hNs hInc hCond hGrp hUrl hWM hCh2 hF hQa
  have hv : v < e.variations.length := by
    have hlt := chooseVariation_lt_length _ _ _ hCh
    rw [expRanges_length { e with coverage := some c1 } hWM] at hlt
    exact hlt
  constructor
  · rw [run_fst]
    unfold evalResult
    rw [mergedExp_of_lookup_none ctx { e with coverage := some c2 } hov, heq2]
    rfl
  · rw [run_fst, run_fst]
    unfold evalResult
    rw [mergedExp_of_lookup_none ctx { e with coverage := some c2 } hov,
      mergedExp_of_lookup_none ctx { e with coverage := some c1 } hov, heq2, heq1]
    rfl

/-- C5 witness: identifier "7" (hash 0.067) is included with variation 0 at
coverage 1/5, and remains included with variation 0 at coverage 1/2. -/
theorem c5_coverage_monotone_witness :
    (run { user := [("id", "7")] } initState
      { key := "my-test", variations := ([0, 1] : List Nat),
        coverage := some (1/5) }).1.inExperiment = true ∧
    ((run { user := [("id", "7")] } initState
      { key := "my-test", variations := ([0, 1] : List Nat),
        coverage := some (1/2) }).1.inExperiment = true ∧
    (run { user := [("id", "7")] } initState
      { key := "my-test", variations := ([0, 1] : List Nat),
        coverage := some (1/2) }).1.variationId =
      (run { user := [("id", "7")] } initState
        { key := "my-test", variations := ([0, 1] : List Nat),
          coverage := some (1/5) }).1.variationId) :=
  ⟨by decide,
    c5_coverage_monotone { user := [("id", "7")] } initState
      { key := "my-test", variations := ([0, 1] : List Nat) } (1/5) (1/2)
      (by rfl) (by decide) (by decide) (by decide) (by decide)⟩

/-- C6 (counterexample): a draft-status experiment forced through the query
string DOES honor the forced override: the result carries the forced index 1
(with inExperiment = false), exactly as the repository's draft test expects,
refuting the claim that forced overrides are not honored for draft status. -/
theorem c6_draft_force_counterexample :
    (run { user := [("id", "1")], url := some "http://example.com/?my-test=1" } initState
      { key := "my-test", status := ExpStatus.draft,
        variations := ([0, 1] : List Nat) }).1.inExperiment = false ∧
    (run { user := [("id", "1")], url := some "http://example.com/?my-test=1" } initState
      { key := "my-test", status := ExpStatus.draft,
        variations := ([0, 1] : List Nat) }).1.variationId = 1 := by
  refine ⟨by decide, by decide⟩

/-- C6 (amended): a forced override from the query string or from
ctx.forcedVariations sets the result to the forced index with
inExperiment = false regardless of the experiment's status, draft included;
these overrides are resolved before the status is even consulted. -/
theorem c6_forced_overrides_ignore_status {V : Type} (ctx : Context) (s : EngineState)
    (e : Experiment V) (hEn : ctx.enabled = true) (hLen : ¬ e.variations.length < 2) :
    (∀ v : Nat, getQueryStringOverride e.key (ctx.url.getD "") = some v →
      (run ctx s e).1 = getExperimentResult ctx (mergedExp ctx e) (Int.ofNat v) false) ∧
    (∀ v : Int, getQueryStringOverride e.key (ctx.url.getD "") = none →
      ctx.forcedVariations.lookup e.key = some v →
      (run ctx s e).1 = getExperimentResult ctx (mergedExp ctx e) v false) := by
  constructor
  · intro v hq
    rw [run_fst]
    exact evalMerged_exit_qs ctx (mergedExp ctx e) v hEn
      (by rwa [mergedExp_variations]) (by rwa [mergedExp_key])
  · intro v hq hf
    rw [run_fst]
    exact evalMerged_exit_fv ctx (mergedExp ctx e) v hEn
      (by rwa [mergedExp_variations]) (by rwa [mergedExp_key]) (by rwa [mergedExp_key])

/-- C6 witness: the query-string conjunct applied to the draft experiment of
the repository's own draft test. -/
theorem c6_forced_overrides_ignore_status_witness :
    (run { user := [("id", "1")], url := some "http://example.com/?my-test=1" } initState
      { key := "my-test", status := ExpStatus.draft, variations := ([0, 1] : List Nat) }).1 =
      getExperimentResult
        { user := [("id", "1")], url := some "http://example.com/?my-test=1" }
        (mergedExp { user := [("id", "1")], url := some "http://example.com/?my-test=1" }
          { key := "my-test", status := ExpStatus.draft, variations := ([0, 1] : List Nat) })
        (Int.ofNat 1) false :=
  (c6_forced_overrides_ignore_status
    { user := [("id", "1")], url := some "http://example.com/?my-test=1" } initState
    { key := "my-test", status := ExpStatus.draft, variations := ([0, 1] : List Nat) }
    (by decide) (by decide)).1 1 (by decide)

/-- C7: the tracking discipline over the lifetime of an engine instance:
an evaluation with inExperiment = false never fires the tracking callback; over
any sequence of evaluations from a fresh instance the log of fired
(key, variation id, hash value) combinations has no duplicates; an immediately
repeated evaluation with unchanged inputs fires nothing new; each evaluation
fires at most once, only when randomly included, and an included evaluation
whose combination is new fires exactly once. -/
theorem c7_tracking_discipline :
    (∀ (V : Type) (ctx : Context) (s : EngineState) (e : Experiment V),
      (run ctx s e).1.inExperiment = false → (run ctx s e).2.trackLog = s.trackLog) ∧
    (∀ (V : Type) (evals : List (Context × Experiment V)),
      ((runMany evals initState).trackLog).Nodup) ∧
    (∀ (V : Type) (ctx : Context) (s : EngineState) (e : Experiment V),
      (run ctx (run ctx s e).2 e).2.trackLog = (run ctx s e).2.trackLog) ∧
    (∀ (V : Type) (ctx : Context) (s : EngineState) (e : Experiment V),
      (run ctx s e).2.trackLog = s.trackLog ∨
        ∃ t, t ∉ s.tracked ∧ (run ctx s e).2.trackLog = s.trackLog ++ [t] ∧
          (run ctx s e).1.inExperiment = true) ∧
    (∀ (V : Type) (ctx : Context) (s : EngineState) (e : Experiment V),
      (run ctx s e).1.inExperiment = true →
      (e.key, (run ctx s e).1.variationId, (run ctx s e).1.hashValue) ∉ s.tracked →
      (run ctx s e).2.trackLog =
        s.trackLog ++ [(e.key, (run ctx s e).1.variationId, (run ctx s e).1.hashValue)]) := by
  refine ⟨?_, ?_, ?_, ?_, ?_⟩
  · intro V ctx s e h
    exact run_trackLog_of_excluded ctx s e (by rwa [run_fst] at h)
  · intro V evals
    exact (runMany_TrackInv evals initState initState_TrackInv).1
  · intro V ctx s e
    exact run_repeat_silent ctx s e
  · intro V ctx s e
    rcases run_state_char ctx s e with ⟨_, hl⟩ | ⟨t, hmem, _, hl, hin⟩
    · exact Or.inl hl
    · exact Or.inr ⟨t, hmem, hl, by rwa [run_fst]⟩
  · intro V ctx s e hin hmem
    exact run_trackLog_new ctx s e (by rwa [run_fst] at hin) hmem

/-- C7 witness: the five conjuncts instantiated on concrete evaluations: a
disabled context fires nothing; a two-evaluation lifetime has a duplicate-free
log; an immediate repeat is silent; a single run extends the log by at most
one entry; and a fresh included run fires exactly one entry. -/
theorem c7_tracking_discipline_witness :
    (run { user := [("id", "1")], enabled := false } initState
      { key := "off-test", variations := ([0, 1] : List Nat) }).2.trackLog =
        initState.trackLog ∧
    ((runMany
      [({ user := [("id", "1")] }, { key := "my-test", variations := ([0, 1] : List Nat) }),
       ({ user := [("id", "1")] }, { key := "my-test", variations := ([0, 1] : List Nat) })]
      initState).trackLog).Nodup ∧
    (run { user := [("id", "1")] }
      (run { user := [("id", "1")] } initState
        { key := "my-test", variations := ([0, 1] : List Nat) }).2
      { key := "my-test", variations := ([0, 1] : List Nat) }).2.trackLog =
      (run { user := [("id", "1")] } initState
        { key := "my-test", variations := ([0, 1] : List Nat) }).2.trackLog ∧
    ((run { user := [("id", "1")] } initState
      { key := "my-test", variations := ([0, 1] : List Nat) }).2.trackLog =
        initState.trackLog ∨
      ∃ t, t ∉ initState.tracked ∧
        (run { user := [("id", "1")] } initState
          { key := "my-test", variations := ([0, 1] : List Nat) }).2.trackLog =
          initState.trackLog ++ [t] ∧
        (run { user := [("id", "1")] } initState
          { key := "my-test", variations := ([0, 1] : List Nat) }).1.inExperiment = true) ∧
    (run { user := [("id", "1")] } initState
      { key := "my-test", variations := ([0, 1] : List Nat) }).2.trackLog =
      initState.trackLog ++
        [("my-test",
          (run { user := [("id", "1")] } initState
            { key := "my-test", variations := ([0, 1] : List Nat) }).1.variationId,
          (run { user := [("id", "1")] } initState
            { key := "my-test", variations := ([0, 1] : List Nat) }).1.hashValue)] :=
  ⟨c7_tracking_discipline.1 Nat { user := [("id", "1")], enabled := false } initState
      { key := "off-test", variations := [0, 1] } (by decide),
   c7_tracking_discipline.2.1 Nat
      [({ user := [("id", "1")] }, { key := "my-test", variations := [0, 1] }),
       ({ user := [("id", "1")] }, { key := "my-test", variations := [0, 1] })],
   c7_tracking_discipline.2.2.1 Nat { user := [("id", "1")] } initState
      { key := "my-test", variations := [0, 1] },
   c7_tracking_discipline.2.2.2.1 Nat { user := [("id", "1")] } initState
      { key := "my-test", variations := [0, 1] },
   c7_tracking_discipline.2.2.2.2 Nat { user := [("id", "1")] } initState
      { key := "my-test", variations := [0, 1] } (by decide) (by decide)⟩

/-- C8 (counterexample): an evaluation forced through a Context override's
force field returns the forced variation 1 but fires NO tracking call — the
tracking log stays empty, exactly as the repository's force-variation test
asserts, refuting the claim that Context-forced evaluations are tracked once. -/
theorem c8_context_force_tracking_counterexample :
    (run { user := [("id", "6")], overrides := [("forced-test", { force := some 1 })] }
      initState { key := "forced-test", variations := ([0, 1] : List Nat) }).1.variationId = 1 ∧
    (run { user := [("id", "6")], overrides := [("forced-test", { force := some 1 })] }
      initState { key := "forced-test", variations := ([0, 1] : List Nat) }).1.inExperiment
        = false ∧
    (run { user := [("id", "6")], overrides := [("forced-test", { force := some 1 })] }
      initState { key := "forced-test", variations := ([0, 1] : List Nat) }).2.trackLog = [] := by
  refine ⟨by decide, by decide, by decide⟩

/-- C8 (amended): tracking is not asymmetric between the forcing mechanisms —
it is suppressed on every forced path.  Whether the variation is forced via
the query string, via ctx.forcedVariations, or via the resolved experiment's
force field, the evaluation fires no tracking call; the callback fires only
for randomly-included results. -/
theorem c8_forced_paths_never_track {V : Type} (ctx : Context) (s : EngineState)
    (e : Experiment V)
    (h : getQueryStringOverride e.key (ctx.url.getD "") ≠ none ∨
      ctx.forcedVariations.lookup e.key ≠ none ∨ (mergedExp ctx e).force ≠ none) :
    (run ctx s e).2.trackLog = s.trackLog := by
  apply run_trackLog_of_excluded
  by_contra hc
  have hIn : (evalMerged ctx (mergedExp ctx e)).inExperiment = true := by
    have h1 : (evalResult ctx e).inExperiment = true := by simpa using hc
    exact h1
  obtain ⟨_, _, hQS, hFV, _, _, _, _, _, _, _, _, _, hF, _, _⟩ :=
    evalMerged_inversion ctx _ hIn
  rcases h with h | h | h
  · rw [mergedExp_key] at hQS
    exact h hQS
  · rw [mergedExp_key] at hFV
    exact h hFV
  · exact h hF

/-- C8 witness: the force-variation test scenario, forced via a Context
override, fires no tracking call. -/
theorem c8_forced_paths_never_track_witness :
    (run { user := [("id", "6")], overrides := [("forced-test", { force := some 1 })] }
      initState { key := "forced-test", variations := ([0, 1] : List Nat) }).2.trackLog =
      initState.trackLog :=
  c8_forced_paths_never_track
    { user := [("id", "6")], overrides := [("forced-test", { force := some 1 })] }
    initState { key := "forced-test", variations := ([0, 1] : List Nat) }
    (Or.inr (Or.inr (by decide)))

/-- C9: evaluation never propagates an exception: an include callback that
throws yields an excluded result; the returned result is independent of whether
the tracking or subscriber callbacks throw (they are caught); and a malformed
single-variation experiment still produces a well-formed excluded result whose
value is the variation payload at index 0. -/
theorem c9_no_exceptions_well_formed :
    (∀ (V : Type) (ctx : Context) (s : EngineState) (e : Experiment V) (msg : String),
      e.includeCb = some (Except.error msg) → (run ctx s e).1.inExperiment = false) ∧
    (∀ (V : Type) (ctx : Context) (s : EngineState) (e : Experiment V) (b1 b2 : Bool),
      (run { ctx with trackingThrows := b1, subscriberThrows := b2 } s e).1 =
        (run ctx s e).1) ∧
    (∀ (V : Type) (ctx : Context) (s : EngineState) (e : Experiment V),
      e.variations.length = 1 →
        (run ctx s e).1.inExperiment = false ∧ (run ctx s e).1.variationId = 0 ∧
        (run ctx s e).1.value = e.variations[0]?) := by
  refine ⟨?_, ?_, ?_⟩
  · intro V ctx s e msg hinc
    rw [run_fst]
    by_contra hc
    have hIn : (evalMerged ctx (mergedExp ctx e)).inExperiment = true := by
      have h1 : (evalResult ctx e).inExperiment = true := by simpa using hc
      exact h1
    obtain ⟨_, _, _, _, _, _, _, _, hInc', _⟩ := evalMerged_inversion ctx _ hIn
    rw [mergedExp_includeCb, hinc] at hInc'
    simp [includePass] at hInc'
  · intro V ctx s e b1 b2
    rfl
  · intro V ctx s e hlen
    have hshape : evalMerged ctx (mergedExp ctx e) =
        getExperimentResult ctx (mergedExp ctx e) 0 false := by
      by_cases hEn : ctx.enabled = true
      · exact evalMerged_exit_short ctx (mergedExp ctx e) hEn
          (by rw [mergedExp_variations]; omega)
      · exact evalMerged_exit_disabled ctx (mergedExp ctx e) (by simpa using hEn)
    have hres : (run ctx s e).1 = getExperimentResult ctx (mergedExp ctx e) 0 false := by
      rw [run_fst]
      exact hshape
    refine ⟨?_, ?_, ?_⟩
    · rw [hres]
      rfl
    · rw [hres, getExperimentResult_variationId, clampIndex_zero]
    · rw [hres, getExperimentResult_value, clampIndex_zero, mergedExp_variations]

/-- C9 witness: a throwing include callback excludes; throwing tracking and
subscriber callbacks leave the result unchanged; and a single-variation
experiment produces the well-formed excluded result with the control payload. -/
theorem c9_no_exceptions_well_formed_witness :
    (run { user := [("id", "1")] } initState
      { key := "my-test", variations := ([0, 1] : List Nat),
        includeCb := some (Except.error "Blah") }).1.inExperiment = false ∧
    (run { user := [("id", "1")], trackingThrows := true, subscriberThrows := true }
      initState { key := "my-test", variations := ([0, 1] : List Nat) }).1 =
      (run { user := [("id", "1")] } initState
        { key := "my-test", variations := ([0, 1] : List Nat) }).1 ∧
    ((run { user := [("id", "1")] } initState
      { key := "weird", variations := ([7] : List Nat) }).1.inExperiment = false ∧
    (run { user := [("id", "1")] } initState
      { key := "weird", variations := ([7] : List Nat) }).1.variationId = 0 ∧
    (run { user := [("id", "1")] } initState
      { key := "weird", variations := ([7] : List Nat) }).1.value =
      ([7] : List Nat)[0]?) :=
  ⟨c9_no_exceptions_well_formed.1 Nat { user := [("id", "1")] } initState
      { key := "my-test", variations := [0, 1],
        includeCb := some (Except.error "Blah") } "Blah" rfl,
   c9_no_exceptions_well_formed.2.1 Nat { user := [("id", "1")] } initState
      { key := "my-test", variations := [0, 1] } true true,
   c9_no_exceptions_well_formed.2.2 Nat { user := [("id", "1")] } initState
      { key := "weird", variations := [7] } (by decide)⟩

/-- C10: for every evaluation over a non-empty variations list — including a
force index outside the list — the returned variationId lies in
[0, variations.length) and the value is the variation payload at that index. -/
theorem c10_variation_bounds {V : Type} (ctx : Context) (s : EngineState)
    (e : Experiment V) (h : e.variations ≠ []) :
    (run ctx s e).1.variationId < e.variations.length ∧
    (run ctx s e).1.value = e.variations[(run ctx s e).1.variationId]? := by
  obtain ⟨i, b, heq⟩ := evalMerged_shape ctx (mergedExp ctx e)
  have hres : (run ctx s e).1 = getExperimentResult ctx (mergedExp ctx e) i b := by
    rw [run_fst]
    exact heq
  have hpos : 0 < e.variations.length := List.length_pos.mpr h
  constructor
  · rw [hres, getExperimentResult_variationId, mergedExp_variations]
    exact clampIndex_lt i hpos
  · rw [hres, getExperimentResult_value, getExperimentResult_variationId,
      mergedExp_variations]

/-- C10 witness: an out-of-range force index (25) on a two-variation
experiment still produces an in-bounds variationId with the matching payload. -/
theorem c10_variation_bounds_witness :
    (run { user := [("id", "1")] } initState
      { key := "my-test", variations := ([0, 1] : List Nat),
        force := some 25 }).1.variationId < ([0, 1] : List Nat).length ∧
    (run { user := [("id", "1")] } initState
      { key := "my-test", variations := ([0, 1] : List Nat), force := some 25 }).1.value =
      ([0, 1] : List Nat)[(run { user := [("id", "1")] } initState
        { key := "my-test", variations := ([0, 1] : List Nat),
          force := some 25 }).1.variationId]? :=
  c10_variation_bounds { user := [("id", "1")] } initState
    { key := "my-test", variations := [0, 1], force := some 25 } (by decide)

end GrowthBook
